import Mathlib

/-!
Verification development for the ApplyBee browser extension
(field extraction and labelling in utils/detect.js, autofill and select
matching in utils/autofill.js, and the request/polling state machine in
background.js and popup.js).

JavaScript strings are modelled as Lean String; the JS string and number
primitives used by the source (trim, toLowerCase, includes, endsWith,
split on whitespace, parseFloat, the two literal regexes of autofill.js)
are embedded as executable functions below.  The DOM is modelled as a
flat list of element records with parent pointers (a preorder flattening
of the tree), which supports every query the source performs:
getElementById, querySelector on label[for] and on tag names, closest,
previousElementSibling chains and ancestor walks.
-/

namespace ApplyBee

/-- Whitespace as matched by the JS regex class backslash-s and by
String.prototype.trim (restricted to the ASCII range used here). -/
def isWs (c : Char) : Bool :=
  c == ' ' || c == '\t' || c == '\n' || c == '\r' || c == '\x0b' || c == '\x0c'

/-- Word characters of the JS regex class backslash-w. -/
def isWordChar (c : Char) : Bool :=
  (decide ('a' ≤ c) && decide (c ≤ 'z')) ||
  (decide ('A' ≤ c) && decide (c ≤ 'Z')) ||
  (decide ('0' ≤ c) && decide (c ≤ '9')) || c == '_'

/-- Decimal digit. -/
def isDigitCh (c : Char) : Bool := decide ('0' ≤ c) && decide (c ≤ '9')

/-- Does list l start with the pattern p (character lists)? -/
def hasInit : List Char → List Char → Bool
  | [], _ => true
  | _ :: _, [] => false
  | a :: as, b :: bs => a == b && hasInit as bs

/-- Does pattern p occur somewhere in l (substring on character lists)? -/
def hasSub (p : List Char) : List Char → Bool
  | [] => hasInit p []
  | c :: cs => hasInit p (c :: cs) || hasSub p cs

/-- JS String.prototype.includes. -/
def jsIncludes (s pat : String) : Bool := hasSub pat.data s.data

/-- JS String.prototype.endsWith. -/
def jsEndsWith (s pat : String) : Bool := hasInit pat.data.reverse s.data.reverse

/-- JS String.prototype.toLowerCase (ASCII, as used on this data). -/
def jsToLower (s : String) : String := ⟨s.data.map Char.toLower⟩

/-- JS String.prototype.trim. -/
def jsTrim (s : String) : String :=
  ⟨((s.data.dropWhile isWs).reverse.dropWhile isWs).reverse⟩

/-- JS truthiness of a string: nonempty. -/
def truthyS (s : String) : Bool := s ≠ ""

/-- JS truthiness of a nullable string (null or a string value). -/
def truthyO : Option String → Bool
  | none => false
  | some s => truthyS s

/-- The JS or-else of a nullable string with a string default: the
nullable operand if truthy, else the default. -/
def jsOrS (o : Option String) (alt : String) : String :=
  match o with
  | some s => if s = "" then alt else s
  | none => alt

/-- The JS or-else chaining two nullable strings into a nullable result,
keeping the first truthy one. -/
def jsOrO (a b : Option String) : Option String :=
  if truthyO a then a else b

mutual

/-- Worker for the JS whitespace split: inside a segment, with the
segment characters accumulated in reverse. -/
def splitWsGo (acc : List Char) : List Char → List String
  | [] => [⟨acc.reverse⟩]
  | c :: cs => if isWs c then ⟨acc.reverse⟩ :: splitWsSkip cs else splitWsGo (c :: acc) cs

/-- Worker for the JS whitespace split: inside a whitespace run that has
already terminated the previous segment. -/
def splitWsSkip : List Char → List String
  | [] => [""]
  | c :: cs => if isWs c then splitWsSkip cs else splitWsGo [c] cs

end

/-- JS split on the regex of one-or-more whitespace.  Maximal whitespace
runs separate the segments; a leading or trailing run contributes an
empty segment, and the empty string splits to one empty segment. -/
def jsSplitWs (s : String) : List String := splitWsGo [] s.data

mutual

/-- Worker for digitRuns: outside a digit run. -/
def digitRunsOut : List Char → List (List Char)
  | [] => []
  | c :: cs => if isDigitCh c then digitRunsIn [c] cs else digitRunsOut cs

/-- Worker for digitRuns: inside a digit run accumulated in reverse. -/
def digitRunsIn (cur : List Char) : List Char → List (List Char)
  | [] => [cur.reverse]
  | c :: cs => if isDigitCh c then digitRunsIn (c :: cur) cs else cur.reverse :: digitRunsOut cs

end

/-- Maximal runs of decimal digits in a list, as matched by the global
digits regex (String.prototype.match with the g flag; the empty result
list models the null return for no match). -/
def digitRuns (l : List Char) : List (List Char) := digitRunsOut l

/-- JS parseInt on a digit run. -/
def parseDigits (l : List Char) : Nat :=
  l.foldl (fun acc c => 10 * acc + (c.toNat - '0'.toNat)) 0

/-- A finite JS number as produced by parseFloat on the decimal literals
this code processes: sign, integer part, and the fraction digit list.
Exponent literals and the float64 rounding of parseFloat are outside the
domain of the data handled here and are not modelled. -/
structure JsNum where
  neg : Bool
  ip : Nat
  fr : List Char
deriving DecidableEq

/-- JS parseFloat: skip leading whitespace, optional sign, then the
longest prefix of digits, optionally followed by a decimal point and more
digits; null models NaN (no digit at all). -/
def jsParseFloat (s : String) : Option JsNum :=
  let l := s.data.dropWhile isWs
  let rest :=
    match l with
    | '-' :: t => t
    | '+' :: t => t
    | t => t
  let neg :=
    match l with
    | '-' :: _ => true
    | _ => false
  let d1 := rest.takeWhile isDigitCh
  let r1 := rest.dropWhile isDigitCh
  let d2 :=
    match r1 with
    | '.' :: t => t.takeWhile isDigitCh
    | _ => []
  if d1.isEmpty && d2.isEmpty then none else some ⟨neg, parseDigits d1, d2⟩

/-- The rational value of a parsed JS number. -/
def jsNumToRat (n : JsNum) : Rat :=
  let mag : Rat := (n.ip : Rat) + (parseDigits n.fr : Rat) / ((10 : Rat) ^ n.fr.length)
  if n.neg then -mag else mag

/-- The canonical JS string rendering of a parsed finite decimal, as a
template literal interpolates it: no leading zeros, no trailing fraction
zeros, negative zero prints as zero. -/
def jsNumToString (n : JsNum) : String :=
  let fr := (n.fr.reverse.dropWhile (fun c => c == '0')).reverse
  let sign := if n.neg && (n.ip ≠ 0 || ¬ fr.isEmpty) then "-" else ""
  sign ++ toString n.ip ++ (if fr.isEmpty then "" else "." ++ (⟨fr⟩ : String))

/-- Word test on an optional character; the edges of a string count as
non-word positions for JS word boundaries. -/
def isWordO : Option Char → Bool
  | none => false
  | some c => isWordChar c

/-- A JS word boundary between two adjacent positions. -/
def isBoundary (a b : Option Char) : Bool := isWordO a != isWordO b

/-- Match the body of a boundary-delimited pattern at the current
position; a dot in the pattern is the regex wildcard, as in the dynamic
regex the select matcher builds from a number.  prev is the subject
character just before the current position. -/
def wbMatchHere (prev : Option Char) : List Char → List Char → Bool
  | [], rest => isBoundary prev rest.head?
  | _ :: _, [] => false
  | pc :: ps, c :: cs => (pc == c || pc == '.') && wbMatchHere (some c) ps cs

/-- Scan for a boundary-delimited occurrence of pat (the test of the
dynamic regex with word boundaries on both sides). -/
def wbSearch (pat : List Char) (prev : Option Char) : List Char → Bool
  | [] => isBoundary prev none && wbMatchHere prev pat []
  | c :: cs =>
    (isBoundary prev (some c) && wbMatchHere prev pat (c :: cs)) || wbSearch pat (some c) cs

/-- The test of the dynamic word-boundary regex against a subject. -/
def wbTest (pat : String) (subj : String) : Bool := wbSearch pat.data none subj.data

/-- The character class of the email regex of autofill.js: word
characters, dot and hyphen. -/
def isC1 (c : Char) : Bool := isWordChar c || c == '.' || c == '-'

/-- After the at sign the email regex needs some class characters, a
literal dot and then word characters; backtracking picks the largest
split of the maximal class run r, and the final word run is greedy. -/
def emailTail (r : List Char) : Option (List Char) :=
  (List.range r.length).reverse.findSome? fun k =>
    if decide (1 ≤ k) && (r.get? k == some '.') && ((r.get? (k+1)).elim false isWordChar)
    then some (r.take k ++ '.' :: ((r.drop (k+1)).takeWhile isWordChar))
    else none

/-- Attempt the email regex of autofill.js at the head of l.  The class
excludes the at sign, so the leading plus is forced to the maximal class
run. -/
def emailAt (l : List Char) : Option (List Char) :=
  let r1 := l.takeWhile isC1
  let rest1 := l.dropWhile isC1
  if r1.isEmpty then none
  else
    match rest1 with
    | '@' :: rest2 => (emailTail (rest2.takeWhile isC1)).map (fun m => r1 ++ '@' :: m)
    | _ => none

/-- Leftmost email match: try each start position left to right. -/
def emailSearch : List Char → Option (List Char)
  | [] => none
  | c :: cs =>
    match emailAt (c :: cs) with
    | some m => some m
    | none => emailSearch cs

/-- The first match of the email regex of autofill.js in a string. -/
def emailMatch (s : String) : Option String := (emailSearch s.data).map (fun l => ⟨l⟩)

/-- Take exactly n digits from the front of l. -/
def takeExactDigits : Nat → List Char → Option (List Char × List Char)
  | 0, l => some ([], l)
  | n + 1, c :: cs =>
    if isDigitCh c then (takeExactDigits n cs).map (fun p => (c :: p.1, p.2)) else none
  | _ + 1, [] => none

/-- The mandatory tail of the phone regex: six to twelve digits, greedy,
nothing after it to satisfy, so the maximal run capped at twelve wins. -/
def phoneMain (l : List Char) : Option (List Char) :=
  let run := l.takeWhile isDigitCh
  if 6 ≤ run.length then some (run.take 12) else none

/-- Alternatives of the optional separator class (whitespace or hyphen),
present before absent, each with the remaining input. -/
def phoneSep (l : List Char) : List (List Char × List Char) :=
  match l with
  | c :: cs => if isWs c || c == '-' then [([c], cs), ([], c :: cs)] else [([], c :: cs)]
  | [] => [([], [])]

/-- Alternatives of the optional leading group of the phone regex (an
optional plus, one to three digits greedy, an optional separator), in
backtracking order. -/
def phoneGroupAlts (l : List Char) : List (List Char × List Char) :=
  let plusAlts : List (List Char × List Char) :=
    match l with
    | '+' :: cs => [(['+'], cs), ([], '+' :: cs)]
    | _ => [([], l)]
  (plusAlts.flatMap fun pa =>
    [3, 2, 1].filterMap fun n =>
      (takeExactDigits n pa.2).map (fun d => (pa.1 ++ d.1, d.2))).flatMap
    fun ga => (phoneSep ga.2).map (fun sp => (ga.1 ++ sp.1, sp.2))

/-- Attempt the phone regex of autofill.js at the head of l: the leading
group alternatives first, then the group left empty. -/
def phoneAt (l : List Char) : Option (List Char) :=
  match (phoneGroupAlts l).findSome? (fun ga => (phoneMain ga.2).map (fun m => ga.1 ++ m)) with
  | some m => some m
  | none => phoneMain l

/-- Leftmost phone match: try each start position left to right. -/
def phoneSearch : List Char → Option (List Char)
  | [] => none
  | c :: cs =>
    match phoneAt (c :: cs) with
    | some m => some m
    | none => phoneSearch cs

/-- The first match of the phone regex of autofill.js in a string. -/
def phoneMatch (s : String) : Option String := (phoneSearch s.data).map (fun l => ⟨l⟩)

/-- Characters of the base64 alphabet. -/
def isB64Char (c : Char) : Bool :=
  (decide ('a' ≤ c) && decide (c ≤ 'z')) ||
  (decide ('A' ≤ c) && decide (c ≤ 'Z')) ||
  (decide ('0' ≤ c) && decide (c ≤ '9')) || c == '+' || c == '/'

/-- ASCII whitespace stripped by forgiving-base64 decoding. -/
def isB64Ws (c : Char) : Bool :=
  c == ' ' || c == '\t' || c == '\n' || c == '\x0c' || c == '\r'

/-- Whether atob accepts the string (forgiving-base64): strip ASCII
whitespace, strip up to two trailing padding signs when the length is a
multiple of four, then the length must not be one more than a multiple of
four and every character must be in the alphabet. -/
def atobOk (s : String) : Bool :=
  let l := s.data.filter (fun c => ¬ isB64Ws c)
  let lr := l.reverse
  let l2 :=
    if l.length % 4 == 0 then
      match lr with
      | '=' :: '=' :: t => t
      | '=' :: t => t
      | t => t
    else lr
  decide (l2.length % 4 ≠ 1) && l2.all isB64Char

/-- ASCII letter. -/
def isAlphaCh (c : Char) : Bool :=
  (decide ('a' ≤ c) && decide (c ≤ 'z')) || (decide ('A' ≤ c) && decide (c ≤ 'Z'))

/-- Characters allowed after the first in a URL scheme. -/
def isSchemeChar (c : Char) : Bool :=
  isAlphaCh c || isDigitCh c || c == '+' || c == '-' || c == '.'

/-- Characters this model accepts in a hostname. -/
def isHostChar (c : Char) : Bool :=
  isAlphaCh c || isDigitCh c || c == '.' || c == '-' || c == '_'

/-- Modelled from the JS URL constructor, restricted to the hierarchical
scheme://host URLs this extension handles: an alphabetic scheme, the
double slash, optional credentials up to a commercial at, then the
hostname up to a colon, slash, question mark or hash.  Returns the
lowercased hostname; null models the constructor throwing.  Opaque-path
URLs of non-special schemes (whose hostname is empty) also map to null,
which is indistinguishable for the greenhouse test below since an empty
hostname never ends with the greenhouse suffix. -/
def jsParseURL (s : String) : Option String :=
  let l := (jsTrim s).data
  match l with
  | [] => none
  | c :: _ =>
    if isAlphaCh c then
      let rest := l.dropWhile isSchemeChar
      match rest with
      | ':' :: '/' :: '/' :: r =>
        let auth := r.takeWhile (fun ch => ¬ (ch == '/' || ch == '?' || ch == '#'))
        let hostPort := (auth.reverse.takeWhile (fun ch => ¬ (ch == '@'))).reverse
        let host := hostPort.takeWhile (fun ch => ¬ (ch == ':'))
        if host.isEmpty || ¬ host.all isHostChar then none
        else some (jsToLower ⟨host⟩)
      | _ => none
    else none

/-- isGreenhouse of utils/detect.js: parse the URL in a try block and
test the hostname against the three greenhouse suffixes; a parse failure
is caught and yields false. -/
def isGreenhouse (url : String) : Bool :=
  match jsParseURL url with
  | some hostname =>
    jsEndsWith hostname "greenhouse.io" || jsEndsWith hostname "boards.greenhouse.io" ||
      jsEndsWith hostname "job-boards.greenhouse.io"
  | none => false

/-- One option of a select control: its text and its value. -/
structure JsOpt where
  text : String := ""
  value : String := ""
deriving DecidableEq

/-- One DOM element.  Attribute-reading properties that yield the empty
string when the attribute is absent (id, name, placeholder, type) are
plain strings; getAttribute results are nullable.  innerText is carried
as data (nothing in the source mutates text), visible models the
computed-style and offsetParent checks, and parent is the index of the
parent element in the preorder flattening (so parent indices are smaller
than child indices in a well-formed document). -/
structure Elem where
  tag : String := "div"
  idAttr : String := ""
  nameAttr : String := ""
  placeholder : String := ""
  typeAttr : String := ""
  ariaLabel : Option String := none
  ariaLabelledby : Option String := none
  forAttr : Option String := none
  innerText : String := ""
  options : List JsOpt := []
  visible : Bool := true
  parent : Option Nat := none
deriving DecidableEq

/-- The element a lookup outside the list falls back to (never reachable
on well-formed queries; keeps lookups total). -/
def defaultElem : Elem := {}

/-- A document: its elements in document (preorder) order. -/
structure Doc where
  elems : List Elem
deriving DecidableEq

/-- Total element lookup. -/
def elemAt (d : Doc) (i : Nat) : Elem := (d.elems[i]?).getD defaultElem

/-- All element indices in document order. -/
def indices (d : Doc) : List Nat := List.range d.elems.length

/-- Tags matched by the selector input, textarea, select. -/
def isControlTag (t : String) : Bool := t == "input" || t == "textarea" || t == "select"

/-- document.getElementById; the empty id never matches an element. -/
def getElementById (d : Doc) (s : String) : Option Nat :=
  if s = "" then none else (indices d).find? (fun i => (elemAt d i).idAttr == s)

/-- document.querySelector for a label with an exact for attribute. -/
def queryLabelFor (d : Doc) (v : String) : Option Nat :=
  (indices d).find? (fun i => (elemAt d i).tag == "label" && (elemAt d i).forAttr == some v)

/-- Fuel-bounded worker for closest: parent links decrease in a preorder
flattening, so a fuel of the starting index plus one never runs out; a
malformed non-decreasing parent link ends the walk. -/
def closestLabelGo (d : Doc) : Nat → Nat → Option Nat
  | 0, _ => none
  | fuel + 1, i =>
    if (elemAt d i).tag == "label" then some i
    else
      match (elemAt d i).parent with
      | some j => if j < i then closestLabelGo d fuel j else none
      | none => none

/-- el.closest for the label tag: the nearest self-or-ancestor label. -/
def closestLabel (d : Doc) (i : Nat) : Option Nat := closestLabelGo d (i + 1) i

/-- Fuel-bounded worker for the ancestor chain (same fuel argument as for
closest). -/
def ancestorsGo (d : Doc) : Nat → Nat → List Nat
  | 0, _ => []
  | fuel + 1, i =>
    match (elemAt d i).parent with
    | some j => if j < i then j :: ancestorsGo d fuel j else []
    | none => []

/-- Strict ancestors of i, nearest first. -/
def ancestors (d : Doc) (i : Nat) : List Nat := ancestorsGo d (i + 1) i

/-- The previousElementSibling chain of i, nearest sibling first. -/
def prevSiblings (d : Doc) (i : Nat) : List Nat :=
  ((List.range i).filter (fun j => (elemAt d j).parent == (elemAt d i).parent)).reverse

/-- node.querySelector over a set of tags: the first descendant of n in
document order whose tag is in the set. -/
def queryDescTag (d : Doc) (n : Nat) (tags : List String) : Option Nat :=
  (indices d).find? (fun j => tags.contains (elemAt d j).tag && (ancestors d j).contains n)

/-- The truthiness pattern t and t.trim() of the label strategies: the
trimmed text when both the text and its trim are nonempty. -/
def nonemptyTrim (t : String) : Option String :=
  if truthyS t && truthyS (jsTrim t) then some (jsTrim t) else none

/-- getLabelForElement strategy 1: an explicit label bound by for/id. -/
def labStrat1 (d : Doc) (i : Nat) : Option String :=
  let el := elemAt d i
  if truthyS el.idAttr then
    (queryLabelFor d el.idAttr).bind (fun j => nonemptyTrim (elemAt d j).innerText)
  else none

/-- getLabelForElement strategy 2: the closest parent label. -/
def labStrat2 (d : Doc) (i : Nat) : Option String :=
  (closestLabel d i).bind (fun j => nonemptyTrim (elemAt d j).innerText)

/-- getLabelForElement strategy 3: the element referenced by
aria-labelledby. -/
def labStrat3 (d : Doc) (i : Nat) : Option String :=
  match (elemAt d i).ariaLabelledby with
  | some a =>
    if truthyS a then (getElementById d a).bind (fun j => nonemptyTrim (elemAt d j).innerText)
    else none
  | none => none

/-- The strategy 4 loop body over the pending sibling indices: a label
sibling with nonempty trimmed text is returned; otherwise any sibling
with truthy innerText whose trimmed text is shorter than 80 characters is
returned — including a whitespace-only sibling, whose trimmed text is
empty. -/
def labStrat4Go (d : Doc) : List Nat → Option String
  | [] => none
  | j :: rest =>
    let p := elemAt d j
    if p.tag == "label" && truthyS (jsTrim p.innerText) then some (jsTrim p.innerText)
    else if truthyS p.innerText && decide ((jsTrim p.innerText).length < 80) then
      some (jsTrim p.innerText)
    else labStrat4Go d rest

/-- getLabelForElement strategy 4: up to four preceding siblings. -/
def labStrat4 (d : Doc) (i : Nat) : Option String :=
  labStrat4Go d ((prevSiblings d i).take 4)

/-- getLabelForElement strategy 5, first half: the placeholder. -/
def labStrat5ph (d : Doc) (i : Nat) : Option String :=
  nonemptyTrim (elemAt d i).placeholder

/-- getLabelForElement strategy 5, second half: the aria-label attribute;
a truthy whitespace-only attribute yields the empty string. -/
def labStrat5aria (d : Doc) (i : Nat) : Option String :=
  match (elemAt d i).ariaLabel with
  | some a => if truthyS a then some (jsTrim a) else none
  | none => none

/-- Tags of the strategy 6 heading query. -/
def headingTags : List String := ["h1", "h2", "h3", "h4", "strong", "b"]

/-- The strategy 6 loop: walk up to six ancestors; in each, query for a
heading descendant with nonempty trimmed text. -/
def labStrat6Go (d : Doc) (node : Nat) : Nat → Option String
  | 0 => none
  | fuel + 1 =>
    match (elemAt d node).parent with
    | none => none
    | some p =>
      match (queryDescTag d p headingTags).bind (fun h => nonemptyTrim (elemAt d h).innerText) with
      | some t => some t
      | none => labStrat6Go d p fuel

/-- getLabelForElement strategy 6: the nearest heading or emphasized text
in up to six ancestor levels. -/
def labStrat6 (d : Doc) (i : Nat) : Option String :=
  labStrat6Go d i 6

/-- First defined value of a strategy list (the early-return chain). -/
def firstSome (l : List (Option String)) : Option String := l.findSome? id

/-- getLabelForElement of utils/detect.js: the six strategies in source
order, first success wins, with the sentinel fallback. -/
def getLabelForElement (d : Doc) (i : Nat) : String :=
  (firstSome [labStrat1 d i, labStrat2 d i, labStrat3 d i, labStrat4 d i,
    labStrat5ph d i, labStrat5aria d i, labStrat6 d i]).getD "(no-label)"

/-- One extracted field descriptor, as built by extractFields (the DOM
element reference is dropped before serialization in the source and is
not carried here; ftype embeds the type property, a reserved word in
Lean). -/
structure Field where
  tag : String := "input"
  name : Option String := none
  id : Option String := none
  placeholder : Option String := none
  ftype : Option String := none
  aria_label : Option String := none
  label_text : String := ""
deriving DecidableEq

/-- The JS pattern value-or-null: the empty string becomes null. -/
def jsOrNull (s : String) : Option String := if s = "" then none else some s

/-- The visible-control scan and descriptor construction of
extractFields, before deduplication. -/
def rawFields (d : Doc) : List Field :=
  ((indices d).filter (fun i => isControlTag (elemAt d i).tag && (elemAt d i).visible)).map
    fun i =>
      let el := elemAt d i
      { tag := el.tag
        name := jsOrNull el.nameAttr
        id := jsOrNull el.idAttr
        placeholder := jsOrNull el.placeholder
        ftype := jsOrNull el.typeAttr
        aria_label :=
          match el.ariaLabel with
          | some a => jsOrNull a
          | none => none
        label_text := getLabelForElement d i }

/-- The deduplication key of extractFields: the template string joining
id, name and label text with double colons. -/
def fieldKey (f : Field) : String :=
  (f.id.getD "") ++ "::" ++ (f.name.getD "") ++ "::" ++ f.label_text

/-- The deduplication loop of extractFields: keep the first descriptor of
each key. -/
def dedupByKey : List Field → List String → List Field
  | [], _ => []
  | f :: fs, seen =>
    if seen.contains (fieldKey f) then dedupByKey fs seen
    else f :: dedupByKey fs (fieldKey f :: seen)

/-- extractFields of utils/detect.js. -/
def extractFields (d : Doc) : List Field := dedupByKey (rawFields d) []

/-- The parsed resume object: filename and raw text. -/
structure Resume where
  filename : String := ""
  raw_text : String := ""
deriving DecidableEq

/-- The stored resume file payload; data is the base64 of the bytes. -/
structure ResumeFile where
  name : String := ""
  mime : Option String := none
  size : Nat := 0
  data : String := ""
deriving DecidableEq

/-- An observable DOM effect of the value setter.  Query-relevant element
state (id, name, placeholder, labels, visibility) is never mutated by the
source, so effects are logged rather than threaded through the
document. -/
inductive Act
  | click (i : Nat)
  | setFiles (i : Nat) (name : String)
  | dispatch (i : Nat) (ev : String)
  | setVal (i : Nat) (v : String)
  | focus (i : Nat)
deriving DecidableEq

/-- Select strategy 1 of setValue: case-insensitive exact text or value
equality, or substring containment in either direction, on trimmed
lowercased texts. -/
def selStrat1 (opts : List JsOpt) (valLower : String) : Option JsOpt :=
  opts.find? fun o =>
    let optText := jsTrim (jsToLower o.text)
    let optValue := jsTrim (jsToLower o.value)
    optText == valLower || optValue == valLower ||
      jsIncludes optText valLower || jsIncludes valLower optText

/-- Select strategy 2 of setValue, for a parsed positive number: with
exactly two extracted integers, range containment; with exactly one,
absolute difference at most two; otherwise (none, or three or more) the
word-boundary test of the number rendered back to a string. -/
def selStrat2 (opts : List JsOpt) (q : JsNum) : Option JsOpt :=
  opts.find? fun o =>
    let optText := jsToLower o.text
    match digitRuns optText.data with
    | [a, b] =>
      decide ((parseDigits a : Rat) ≤ jsNumToRat q) && decide (jsNumToRat q ≤ (parseDigits b : Rat))
    | [a] => decide (|jsNumToRat q - (parseDigits a : Rat)| ≤ 2)
    | _ => wbTest (jsNumToString q) optText

/-- Select strategy 3 of setValue, for multi-word answers: every
significant (longer than two characters) answer word appears in the
option text, or some option word is among the significant answer
words. -/
def selStrat3 (opts : List JsOpt) (valLower : String) : Option JsOpt :=
  let valWords := (jsSplitWs valLower).filter (fun w => 2 < w.length)
  opts.find? fun o =>
    let optText := jsToLower o.text
    valWords.all (fun w => jsIncludes optText w) ||
      (jsSplitWs optText).any (fun ow => valWords.contains ow)

/-- Select strategy 4 of setValue: last-resort substring containment in
either direction (option text not trimmed here, as in the source). -/
def selStrat4 (opts : List JsOpt) (valLower : String) : Option JsOpt :=
  opts.find? fun o =>
    let optText := jsToLower o.text
    jsIncludes optText valLower || jsIncludes valLower optText

/-- The select branch of setValue: the four strategies with their guards,
each consulted only while the previous ones produced no candidate. -/
def findOption (opts : List JsOpt) (val : String) : Option JsOpt :=
  let valLower := jsTrim (jsToLower val)
  let o1 := selStrat1 opts valLower
  let o2 :=
    match o1 with
    | some _ => o1
    | none =>
      match jsParseFloat valLower with
      | some q => if 0 < jsNumToRat q then selStrat2 opts q else none
      | none => none
  let o3 :=
    match o2 with
    | some _ => o2
    | none => if 1 < (jsSplitWs valLower).length then selStrat3 opts valLower else none
  match o3 with
  | some _ => o3
  | none => selStrat4 opts valLower

/-- setValue of utils/autofill.js.  The file branch attaches the supplied
payload (base64-decoding it; a decode failure is caught and falls back to
a click) or, with no payload, clicks the control to open the native
picker and reports failure.  The select branch applies findOption and
sets the matched value.  The text branch always succeeds.  The
surrounding try/catch returns false; nothing in this total model
throws. -/
def setValue (d : Doc) (el? : Option Nat) (val : String) (resumeFile : Option ResumeFile) :
    Bool × List Act :=
  match el? with
  | none => (false, [])
  | some i =>
    let el := elemAt d i
    if el.typeAttr == "file" then
      match resumeFile with
      | some rf =>
        if truthyS rf.data then
          if atobOk rf.data then
            (true, [Act.setFiles i rf.name, Act.dispatch i "change", Act.dispatch i "input"])
          else (false, [Act.click i])
        else (false, [Act.click i])
      | none => (false, [Act.click i])
    else if el.tag == "select" then
      match findOption el.options val with
      | some o => (true, [Act.setVal i o.value, Act.dispatch i "change"])
      | none => (false, [])
    else
      (true, [Act.focus i, Act.setVal i val, Act.dispatch i "input", Act.dispatch i "change"])

/-- All input, textarea and select elements in document order. -/
def allControls (d : Doc) : List Nat :=
  (indices d).filter (fun i => isControlTag (elemAt d i).tag)

/-- The visible controls considered by the token-overlap ranking. -/
def visControls (d : Doc) : List Nat :=
  (indices d).filter (fun i => isControlTag (elemAt d i).tag && (elemAt d i).visible)

/-- document.querySelector for an exact name attribute. -/
def queryByName (d : Doc) (v : String) : Option Nat :=
  (indices d).find? (fun i => (elemAt d i).nameAttr == v)

/-- label.querySelector for the first control nested in a label. -/
def queryDescControl (d : Doc) (n : Nat) : Option Nat :=
  (indices d).find? (fun j => isControlTag (elemAt d j).tag && (ancestors d j).contains n)

/-- All labels in document order. -/
def labelsOf (d : Doc) : List Nat :=
  (indices d).filter (fun i => (elemAt d i).tag == "label")

/-- The label scan of findElementForField: a label whose caption contains
the field label resolves through its for reference or its nested control;
otherwise the scan continues. -/
def labelScan (d : Doc) (label : String) : List Nat → Option Nat
  | [] => none
  | j :: rest =>
    if jsIncludes (jsToLower (elemAt d j).innerText) label then
      match
        (match (elemAt d j).forAttr with
         | some forId => if truthyS forId then getElementById d forId else none
         | none => none) with
      | some e => some e
      | none =>
        match queryDescControl d j with
        | some e => some e
        | none => labelScan d label rest
    else labelScan d label rest

/-- The token-overlap score of a candidate control: how many of the
field-label tokens occur in its id, name, placeholder and aria-label
text. -/
def tokenScore (d : Doc) (i : Nat) (tokens : List String) : Nat :=
  let el := elemAt d i
  let text :=
    jsToLower (el.idAttr ++ " " ++ el.nameAttr ++ " " ++ el.placeholder ++ " " ++
      (el.ariaLabel.getD ""))
  tokens.foldl (fun sc t => if truthyS t && jsIncludes text t then sc + 1 else sc) 0

/-- The ranking loop: strictly larger scores win, ties keep the first
candidate; only a positive score produces a result. -/
def bestByScore (d : Doc) (tokens : List String) (cands : List Nat) : Option Nat × Nat :=
  cands.foldl
    (fun acc i =>
      let score := tokenScore d i tokens
      if acc.2 < score then (some i, score) else acc)
    (none, 0)

/-- findElementForField of utils/autofill.js: exact id, exact name,
placeholder substring, label caption containment, then the token-overlap
ranking over visible controls. -/
def findElementForField (d : Doc) (f : Field) : Option Nat :=
  let label := jsToLower f.label_text
  match (if truthyO f.id then getElementById d (f.id.getD "") else none) with
  | some e => some e
  | none =>
    match (if truthyO f.name then queryByName d (f.name.getD "") else none) with
    | some e => some e
    | none =>
      match
        (if truthyO f.placeholder then
          (allControls d).find? (fun i =>
            jsIncludes (jsToLower (elemAt d i).placeholder) (jsToLower (f.placeholder.getD "")))
         else none) with
      | some e => some e
      | none =>
        match labelScan d label (labelsOf d) with
        | some e => some e
        | none => (bestByScore d ((jsSplitWs label).take 4) (visControls d)).1

/-- Lookup in the answers mapping; null models an absent key. -/
def answersLookup (m : List (String × String)) (k : String) : Option String :=
  (m.find? (fun p => p.1 == k)).map (fun p => p.2)

/-- The per-field display label of the autofill loop: the first truthy of
label text, aria-label, placeholder, name and id, else the sentinel. -/
def autofillLbl (f : Field) : String :=
  jsOrS (some f.label_text) (jsOrS f.aria_label (jsOrS f.placeholder (jsOrS f.name
    (jsOrS f.id "(no-label)"))))

/-- The candidate answer: the exact label key when present (even if
falsy), else the trimmed key with an empty default. -/
def candidateAnswer (answers : List (String × String)) (lbl : String) : String :=
  match answersLookup answers lbl with
  | some v => v
  | none => jsOrS (answersLookup answers (jsTrim lbl)) ""

/-- The main loop of autofillFields over the field list: resolve the
element, handle file controls without needing an answer, otherwise trim
the answer and apply it; the awaited setValue result gates the filled
count. -/
def autofillLoop (d : Doc) (answers : List (String × String)) (resumeFile : Option ResumeFile) :
    List Field → Nat × List Act
  | [] => (0, [])
  | f :: fs =>
    let rest := autofillLoop d answers resumeFile fs
    let lbl := autofillLbl f
    let ca := candidateAnswer answers lbl
    match findElementForField d f with
    | none => rest
    | some e =>
      if (elemAt d e).typeAttr == "file" then
        let r := setValue d (some e) "" resumeFile
        ((if r.1 then 1 else 0) + rest.1, r.2 ++ rest.2)
      else if ¬ truthyS ca then rest
      else
        let val := jsTrim ca
        if ¬ truthyS val then rest
        else
          let r := setValue d (some e) val resumeFile
          ((if r.1 then 1 else 0) + rest.1, r.2 ++ rest.2)

/-- The element lookup of the fallback pass: getElementById on the
(possibly null) field id, else the name selector.  A null id or name
selects nothing (no element of this model carries the literal id
null). -/
def fbLookup (d : Doc) (f : Field) : Option Nat :=
  match
    (match f.id with
     | some s => getElementById d s
     | none => none) with
  | some e => some e
  | none =>
    match f.name with
    | some s => queryByName d s
    | none => none

/-- The fallback pass of autofillFields.  The source tests the result of
the async setValue without awaiting it, so the truthy promise makes the
count increment whenever the element exists, regardless of whether the
value set succeeded; the setValue body still runs (it contains no await)
and its effects are logged. -/
def fallbackPass (d : Doc) (em ph : Option String) : List Field → Nat × List Act
  | [] => (0, [])
  | f :: fs =>
    let key := jsToLower f.label_text
    let e1 :=
      if jsIncludes key "email" && truthyO em then
        match fbLookup d f with
        | some e => (1, (setValue d (some e) (em.getD "") none).2)
        | none => (0, [])
      else (0, [])
    let e2 :=
      if jsIncludes key "phone" && truthyO ph then
        match fbLookup d f with
        | some e => (1, (setValue d (some e) (ph.getD "") none).2)
        | none => (0, [])
      else (0, [])
    let rest := fallbackPass d em ph fs
    (e1.1 + e2.1 + rest.1, e1.2 ++ e2.2 ++ rest.2)

/-- autofillFields of utils/autofill.js: the main loop, then — only when
nothing was counted as filled and a parsed resume is present — the
email/phone fallback pass; returns whether the final count is positive.
The outer try/catch returns false on an exception; this total model has
none. -/
def autofillFields (d : Doc) (fields : List Field) (answersMap : List (String × String))
    (parsed_resume : Option Resume) (resumeFile : Option ResumeFile) : Bool × List Act :=
  let main := autofillLoop d answersMap resumeFile fields
  match parsed_resume with
  | some pr =>
    if main.1 == 0 then
      let em := if truthyS pr.raw_text then emailMatch pr.raw_text else none
      let ph := if truthyS pr.raw_text then phoneMatch pr.raw_text else none
      let fb := fallbackPass d em ph fields
      (decide (0 < main.1 + fb.1), main.2 ++ fb.2)
    else (decide (0 < main.1), main.2)
  | none => (decide (0 < main.1), main.2)

/-- An action that records an actually successful value application: a
value set on a text or select control, or a file attachment. -/
def isFillAct : Act → Bool
  | Act.setVal _ _ => true
  | Act.setFiles _ _ => true
  | _ => false

/-- Whether the logged effects contain a successful fill. -/
def fillSucceeded (acts : List Act) : Bool := acts.any isFillAct

/-- The fixed request timeout of background.js and popup.js. -/
def REQUEST_TIMEOUT : Nat := 2 * 60 * 1000

/-- The poll interval of popup.js. -/
def POLLING_INTERVAL : Nat := 2000

/-- The persisted request record for one requestId, keyed request_ and
the id in chrome.storage.local; the status strings processing, complete
and error of the source are the three constructors. -/
inductive ReqRecord
  | processing (startTime : Nat)
  | complete (data : String)
  | error (err : String)
deriving DecidableEq

/-- Terminal statuses. -/
def isTerminal : ReqRecord → Bool
  | ReqRecord.processing _ => false
  | _ => true

/-- Where the orchestrator coroutine for the requestId stands: before the
message listener registered it, after pendingRequests.set, awaiting the
fetch after the processing record was persisted, and after the terminal
record was persisted (the finally block runs in the same microtask turn
as that persist resolving, so settling also clears the in-memory
entry). -/
inductive Phase
  | idle
  | registered
  | inFlight
  | settled
deriving DecidableEq

/-- The cross-context state relevant to one requestId: the persisted
record, membership in the in-memory pendingRequests map, and the
orchestrator phase. -/
structure BgState where
  storage : Option ReqRecord
  pending : Bool
  phase : Phase
deriving DecidableEq

/-- The result object fetchWithTimeout returns. -/
structure FetchRes where
  ok : Bool
  status : Option Nat := none
  data : Option String := none
  error : Option String := none
deriving DecidableEq

/-- The behavior of the backing network call: it resolves with a
response after t milliseconds, rejects after t milliseconds, or neither
(within any horizon of interest). -/
inductive NetBehavior
  | settles (ok : Bool) (status : Nat) (body : String) (t : Nat)
  | fails (msg : String) (t : Nat)
  | hangs
deriving DecidableEq

/-- The message of the AbortError branch of fetchWithTimeout; the source
interpolates the measured elapsed seconds, which at the abort equals the
timeout in seconds. -/
def timeoutErrMsg (timeout : Nat) : String :=
  "Request timed out after " ++ toString (timeout / 1000) ++ " seconds"

/-- The result fetchWithTimeout returns when its timer aborts the
controller. -/
def timeoutRes (timeout : Nat) : FetchRes :=
  { ok := false, error := some (timeoutErrMsg timeout) }

/-- fetchWithTimeout of background.js: a timer aborts the controller at
the timeout; a resolution or rejection before that cancels the timer and
is forwarded, with the response body read into data. -/
def fetchWithTimeout (net : NetBehavior) (timeout : Nat) : FetchRes :=
  match net with
  | NetBehavior.settles ok status body t =>
    if t < timeout then { ok := ok, status := some status, data := some body }
    else timeoutRes timeout
  | NetBehavior.fails msg t =>
    if t < timeout then { ok := false, error := some msg } else timeoutRes timeout
  | NetBehavior.hangs => timeoutRes timeout

/-- Whether the network call resolves or rejects strictly before the
timeout. -/
def settlesWithin (net : NetBehavior) (timeout : Nat) : Bool :=
  match net with
  | NetBehavior.settles _ _ _ t => t < timeout
  | NetBehavior.fails _ t => t < timeout
  | NetBehavior.hangs => false

/-- The terminal record handleResumeScoreRequest persists for a fetch
result: complete with the data on ok, otherwise error with the first
truthy of data, error and the unknown-error default. -/
def recordOfRes (res : FetchRes) : ReqRecord :=
  if res.ok then ReqRecord.complete (res.data.getD "")
  else ReqRecord.error (jsOrS res.data (jsOrS res.error "Unknown error"))

/-- The terminal record the orchestrator writes for a given network
behavior (handleResumeScoreRequest around its fetchWithTimeout call with
the fixed timeout). -/
def handleResumeScoreTerminal (net : NetBehavior) : ReqRecord :=
  recordOfRes (fetchWithTimeout net REQUEST_TIMEOUT)

/-- The events that touch the state of one requestId.  register is the
BG_RESUME_SCORE listener storing the in-memory entry; persistProcessing
is the orchestrator persisting the processing record before its fetch;
settle is the fetch resolving, which persists the terminal record
unconditionally and then clears the in-memory entry; check and cancel
are the CHECK_REQUEST_STATUS and CANCEL_REQUEST handlers.  Handlers are
modelled as atomic steps: the single popup polls serially, so its checks
never overlap one another. -/
inductive Event
  | register (t : Nat)
  | persistProcessing (t : Nat)
  | settle (res : FetchRes)
  | check
  | cancel
deriving DecidableEq

/-- The responses of the CHECK_REQUEST_STATUS handler. -/
inductive Resp
  | processing
  | complete (data : String)
  | error (err : String)
  | not_found
deriving DecidableEq

/-- The response a record maps to. -/
def respOf : ReqRecord → Resp
  | ReqRecord.processing _ => Resp.processing
  | ReqRecord.complete dd => Resp.complete dd
  | ReqRecord.error er => Resp.error er

/-- Before anything happened for the requestId. -/
def initialState : BgState := { storage := none, pending := false, phase := Phase.idle }

/-- One event against the state.  The orchestrator steps are guarded by
its phase (its coroutine runs each step once, in order); check consumes a
terminal record; cancel removes the record and the in-memory entry.  The
settle step persists its terminal record even if a cancel already removed
everything: handleResumeScoreRequest saves unconditionally when the fetch
returns. -/
def applyEvent (s : BgState) (e : Event) : BgState :=
  match e with
  | Event.register _ =>
    if s.phase == Phase.idle then { s with pending := true, phase := Phase.registered }
    else s
  | Event.persistProcessing t =>
    if s.phase == Phase.registered then
      { s with storage := some (ReqRecord.processing t), phase := Phase.inFlight }
    else s
  | Event.settle res =>
    if s.phase == Phase.inFlight then
      { storage := some (recordOfRes res), pending := false, phase := Phase.settled }
    else s
  | Event.check =>
    match s.storage with
    | some (ReqRecord.complete _) => { s with storage := none }
    | some (ReqRecord.error _) => { s with storage := none }
    | _ => s
  | Event.cancel => { s with storage := none, pending := false }

/-- The response the CHECK_REQUEST_STATUS handler produces against a
state: a missing record falls back to the in-memory entry (still
processing) or not_found; a stored record answers by its status, and a
terminal one is deleted as it is returned (the storage change is in
applyEvent). -/
def checkResp (s : BgState) : Resp :=
  match s.storage with
  | none => if s.pending then Resp.processing else Resp.not_found
  | some (ReqRecord.processing _) => Resp.processing
  | some (ReqRecord.complete dd) => Resp.complete dd
  | some (ReqRecord.error er) => Resp.error er

/-- Run a list of events. -/
def run (s : BgState) (es : List Event) : BgState := es.foldl applyEvent s

/-- Events issued by consumers only (poll or cancel), with no
orchestrator activity. -/
def isConsumerEvent : Event → Bool
  | Event.check => true
  | Event.cancel => true
  | _ => false

/-- What one tick of the popup checkRequestStatus does. -/
inductive PollAct
  | clientTimeout
  | continuePolling
  | finishComplete (data : String)
  | finishError (err : String)
  | finishNotFound
deriving DecidableEq

/-- checkRequestStatus of popup.js as a decision function: the elapsed
time is computed first and, at or past the deadline, polling stops with a
client-side timeout before the background is even messaged; otherwise the
background response decides. -/
def checkRequestStatusStep (elapsed : Nat) (resp : Resp) : PollAct :=
  if REQUEST_TIMEOUT ≤ elapsed then PollAct.clientTimeout
  else
    match resp with
    | Resp.processing => PollAct.continuePolling
    | Resp.complete dd => PollAct.finishComplete dd
    | Resp.error er => PollAct.finishError er
    | Resp.not_found => PollAct.finishNotFound

/-- The cancellation property as the spec states it: after a cancel,
every subsequent status poll answers not_found, whatever else happens in
between (in particular the in-flight fetch settling). -/
def cancelClaim : Prop :=
  ∀ es₁ es₂ : List Event,
    checkResp (run (applyEvent (run initialState es₁) Event.cancel) es₂) = Resp.not_found

/-- The document with the placeholder of element i erased, for stating
that a resolution never consults the placeholder. -/
def erasePlaceholder (d : Doc) (i : Nat) : Doc :=
  ⟨d.elems.set i { elemAt d i with placeholder := "" }⟩

/-- The claim that a control carrying both an aria-label and a
placeholder resolves before the placeholder is ever considered: erasing
the placeholder must not change the resolved label. -/
def ariaBeforePlaceholderClaim : Prop :=
  ∀ (d : Doc) (i : Nat),
    truthyO (elemAt d i).ariaLabel = true →
    truthyS (elemAt d i).placeholder = true →
    getLabelForElement d i = getLabelForElement (erasePlaceholder d i) i

/-- The claim that the label resolver never returns the empty string. -/
def neverEmptyLabelClaim : Prop :=
  ∀ (d : Doc) (i : Nat), getLabelForElement d i ≠ ""

/-- The identity tuple of a descriptor named by the deduplication
claim. -/
def fTuple (f : Field) : Option String × Option String × String :=
  (f.id, f.name, f.label_text)

/-- The claim that the first-seen descriptor of each identity tuple is
kept by extraction. -/
def dedupeFirstSeenClaim : Prop :=
  ∀ (d : Doc) (i : Nat) (f : Field),
    (rawFields d)[i]? = some f →
    (∀ j g, j < i → (rawFields d)[j]? = some g → fTuple g ≠ fTuple f) →
    f ∈ extractFields d

/-- A control carrying both an aria-label and a placeholder and nothing
else (for the label-priority counterexample). -/
def docAriaPh : Doc :=
  ⟨[{ tag := "input", ariaLabel := some "A", placeholder := "P" }]⟩

/-- An input preceded by a sibling whose text is whitespace only (for the
empty-label counterexample). -/
def docWsSibling : Doc :=
  ⟨[{ tag := "div", innerText := " " }, { tag := "input" }]⟩

/-- An input whose examined sibling has real text (for the amended
empty-label witness). -/
def docTextSibling : Doc :=
  ⟨[{ tag := "div", innerText := "Name" }, { tag := "input" }]⟩

/-- Two visible inputs with distinct identity tuples whose joined
deduplication keys collide (for the deduplication counterexample): the
double colons of the first id absorb the boundary between id and name. -/
def docKeyCollision : Doc :=
  ⟨[{ tag := "input", idAttr := "a::b", nameAttr := "c", placeholder := "d",
      typeAttr := "text" },
    { tag := "input", idAttr := "a", nameAttr := "b::c", placeholder := "d",
      typeAttr := "text" }]⟩

/-- A select control with no option resembling an email address (for the
fallback-count evaluation). -/
def docEmailSelect : Doc :=
  ⟨[{ tag := "select", idAttr := "e", typeAttr := "select-one",
      options := [{ text := "x", value := "x" }] }]⟩

/-- The descriptor of the email-labelled select above. -/
def fieldEmailSelect : Field :=
  { tag := "select", id := some "e", ftype := some "select-one", label_text := "email" }

/-- A lone file input (for the file-field evaluations). -/
def docFileInput : Doc :=
  ⟨[{ tag := "input", idAttr := "r", typeAttr := "file" }]⟩

/-- The descriptor of the file input above. -/
def fieldFileInput : Field :=
  { tag := "input", id := some "r", ftype := some "file", label_text := "Resume" }

/-- The year-range options of the select-matching example. -/
def yearOptions : List JsOpt :=
  [{ text := "0-2 years", value := "0-2 years" },
   { text := "3-5 years", value := "3-5 years" },
   { text := "5-7 years", value := "5-7 years" },
   { text := "7+ years", value := "7+ years" }]

/-- A document holding the year-range select (for the value-setter part
of the select example). -/
def docYearSelect : Doc :=
  ⟨[{ tag := "select", idAttr := "yoe", typeAttr := "select-one", options := yearOptions }]⟩

/-- The descriptor extraction builds for the first collision input. -/
def fieldCollA : Field :=
  { tag := "input", name := some "c", id := some "a::b", placeholder := some "d",
    ftype := some "text", label_text := "d" }

/-- The descriptor extraction builds for the second collision input. -/
def fieldCollB : Field :=
  { tag := "input", name := some "b::c", id := some "a", placeholder := some "d",
    ftype := some "text", label_text := "d" }

/-- No examined preceding sibling of i carries truthy innerText whose
trim is empty (the situation in which strategy 4 yields an empty
label). -/
def sibsTrimOk (d : Doc) (i : Nat) : Bool :=
  ((prevSiblings d i).take 4).all fun j =>
    (! truthyS (elemAt d j).innerText) || decide (jsTrim (elemAt d j).innerText ≠ "")

/-- The aria-label attribute, when truthy, does not trim to the empty
string (the situation in which strategy 5 yields an empty label). -/
def ariaTrimOk : Option String → Bool
  | none => true
  | some a => (! truthyS a) || decide (jsTrim a ≠ "")

/-- Reachability invariant of the per-request state: the orchestrator
phase bounds what the storage can hold — no record before the processing
persist, only a processing record (or a cancelled gap) while the fetch is
outstanding, and once settled the in-memory entry is gone; a terminal
record therefore exists only in the settled phase. -/
def InvB (s : BgState) : Bool :=
  match s.phase, s.storage with
  | Phase.idle, none => true
  | Phase.registered, none => true
  | Phase.inFlight, none => true
  | Phase.inFlight, some (ReqRecord.processing _) => true
  | Phase.settled, _ => ! s.pending
  | _, _ => false

/-- The absorbing state after a terminal record was consumed: settled,
nothing stored, nothing pending. -/
def Quiet (s : BgState) : Prop :=
  s.phase = Phase.settled ∧ s.storage = none ∧ s.pending = false

theorem hasInit_append_imp (a b l : List Char) (h : hasInit (a ++ b) l = true) :
    hasInit a l = true := by
  induction a generalizing l with
  | nil => rfl
  | cons x xs ih =>
    cases l with
    | nil => simp [hasInit] at h
    | cons y ys =>
      simp only [List.cons_append, hasInit, Bool.and_eq_true] at h ⊢
      exact ⟨h.1, ih ys h.2⟩

theorem boards_suffix_imp (h : String) (hb : jsEndsWith h "boards.greenhouse.io" = true) :
    jsEndsWith h "greenhouse.io" = true := by
  unfold jsEndsWith at hb ⊢
  have key : ("boards.greenhouse.io" : String).data.reverse
      = ("greenhouse.io" : String).data.reverse ++ (".sdraob" : String).data := by decide
  rw [key] at hb
  exact hasInit_append_imp _ _ _ hb

theorem jobBoards_suffix_imp (h : String)
    (hb : jsEndsWith h "job-boards.greenhouse.io" = true) :
    jsEndsWith h "greenhouse.io" = true := by
  unfold jsEndsWith at hb ⊢
  have key : ("job-boards.greenhouse.io" : String).data.reverse
      = ("greenhouse.io" : String).data.reverse ++ (".sdraob-boj" : String).data := by decide
  rw [key] at hb
  exact hasInit_append_imp _ _ _ hb

/-- Claim C10: isGreenhouse is total over arbitrary strings — a string
the URL model rejects yields false (the catch branch), and otherwise the
result is exactly whether the parsed hostname ends with greenhouse.io,
the two longer suffix tests being subsumed; with a positive and a
negative evaluation. -/
theorem C10_isGreenhouse_total :
    (∀ u : String, isGreenhouse u =
      ((jsParseURL u).map (fun host => jsEndsWith host "greenhouse.io")).getD false) ∧
    isGreenhouse "https://boards.greenhouse.io/acme/jobs/1" = true ∧
    isGreenhouse "notaurl" = false := by
  refine ⟨fun u => ?_, by decide, by decide⟩
  unfold isGreenhouse
  cases hp : jsParseURL u with
  | none => rfl
  | some host =>
    simp only [Option.map_some', Option.getD_some]
    cases hg : jsEndsWith host "greenhouse.io" with
    | true => simp [hg]
    | false =>
      have h1 : jsEndsWith host "boards.greenhouse.io" = false := by
        by_contra hx
        rw [Bool.not_eq_false] at hx
        rw [boards_suffix_imp host hx] at hg
        exact absurd hg (by simp)
      have h2 : jsEndsWith host "job-boards.greenhouse.io" = false := by
        by_contra hx
        rw [Bool.not_eq_false] at hx
        rw [jobBoards_suffix_imp host hx] at hg
        exact absurd hg (by simp)
      simp [hg, h1, h2]

/-- Claim C5: on the year-range options the answer string seven selects
the option five-to-seven years (already via the exact/substring strategy,
iterated in option order) and the value setter applies exactly that
option value; in general the four select strategies are consulted in
fixed order with their guards, and the first one that yields a candidate
determines the result, later strategies never being consulted. -/
theorem C5_select_priority :
    ((findOption yearOptions "7").map (fun o => o.text) = some "5-7 years") ∧
    (setValue docYearSelect (some 0) "7" none =
      (true, [Act.setVal 0 "5-7 years", Act.dispatch 0 "change"])) ∧
    (∀ (opts : List JsOpt) (val : String) (o : JsOpt),
      selStrat1 opts (jsTrim (jsToLower val)) = some o → findOption opts val = some o) ∧
    (∀ (opts : List JsOpt) (val : String) (q : JsNum) (o : JsOpt),
      selStrat1 opts (jsTrim (jsToLower val)) = none →
      jsParseFloat (jsTrim (jsToLower val)) = some q → 0 < jsNumToRat q →
      selStrat2 opts q = some o → findOption opts val = some o) ∧
    (∀ (opts : List JsOpt) (val : String) (o : JsOpt),
      selStrat1 opts (jsTrim (jsToLower val)) = none →
      (∀ q, jsParseFloat (jsTrim (jsToLower val)) = some q →
        0 < jsNumToRat q → selStrat2 opts q = none) →
      1 < (jsSplitWs (jsTrim (jsToLower val))).length →
      selStrat3 opts (jsTrim (jsToLower val)) = some o → findOption opts val = some o) ∧
    (∀ (opts : List JsOpt) (val : String),
      selStrat1 opts (jsTrim (jsToLower val)) = none →
      (∀ q, jsParseFloat (jsTrim (jsToLower val)) = some q →
        0 < jsNumToRat q → selStrat2 opts q = none) →
      (1 < (jsSplitWs (jsTrim (jsToLower val))).length →
        selStrat3 opts (jsTrim (jsToLower val)) = none) →
      findOption opts val = selStrat4 opts (jsTrim (jsToLower val))) := by
  refine ⟨by decide, by decide, ?_, ?_, ?_, ?_⟩
  · intro opts val o h1
    simp [findOption, h1]
  · intro opts val q o h1 h2 h3 h4
    simp [findOption, h1, h2, h3, h4]
  · intro opts val o h1 h2 h3 h4
    cases hp : jsParseFloat (jsTrim (jsToLower val)) with
    | none => simp [findOption, h1, hp, h3, h4]
    | some q =>
      by_cases hq : 0 < jsNumToRat q
      · have hz := h2 q hp hq
        simp [findOption, h1, hp, hq, hz, h3, h4]
      · simp [findOption, h1, hp, hq, h3, h4]
  · intro opts val h1 h2 h3
    cases hp : jsParseFloat (jsTrim (jsToLower val)) with
    | none =>
      by_cases hw : 1 < (jsSplitWs (jsTrim (jsToLower val))).length
      · simp [findOption, h1, hp, hw, h3 hw]
      · simp [findOption, h1, hp, hw]
    | some q =>
      by_cases hq : 0 < jsNumToRat q
      · have hz := h2 q hp hq
        by_cases hw : 1 < (jsSplitWs (jsTrim (jsToLower val))).length
        · simp [findOption, h1, hp, hq, hz, hw, h3 hw]
        · simp [findOption, h1, hp, hq, hz, hw]
      · by_cases hw : 1 < (jsSplitWs (jsTrim (jsToLower val))).length
        · simp [findOption, h1, hp, hq, hw, h3 hw]
        · simp [findOption, h1, hp, hq, hw]

theorem C5_select_priority_witness :
    findOption yearOptions "7" = some { text := "5-7 years", value := "5-7 years" } :=
  C5_select_priority.2.2.1 yearOptions "7" { text := "5-7 years", value := "5-7 years" }
    (by decide)

/-- Claim C9: on a file control the value setter with no payload clicks
the native picker exactly once and reports failure (so the autofill loop
counts nothing, as the concrete run shows), and with a payload whose data
decodes it attaches the file, emits change and input, and reports
success. -/
theorem C9_file_value_setter (d : Doc) (i : Nat) (rf : ResumeFile)
    (hfile : (elemAt d i).typeAttr = "file") :
    setValue d (some i) "" none = (false, [Act.click i]) ∧
    (truthyS rf.data = true → atobOk rf.data = true →
      setValue d (some i) "" (some rf) =
        (true, [Act.setFiles i rf.name, Act.dispatch i "change", Act.dispatch i "input"])) ∧
    autofillFields docFileInput [fieldFileInput] [] none none = (false, [Act.click 0]) := by
  refine ⟨?_, fun h1 h2 => ?_, by decide⟩
  · simp [setValue, hfile]
  · simp [setValue, hfile, h1, h2]

theorem C9_file_value_setter_witness :
    setValue docFileInput (some 0) "" none = (false, [Act.click 0]) ∧
    setValue docFileInput (some 0) "" (some { name := "r.pdf", data := "QQ==" }) =
      (true, [Act.setFiles 0 "r.pdf", Act.dispatch 0 "change", Act.dispatch 0 "input"]) := by
  have h := C9_file_value_setter docFileInput 0 { name := "r.pdf", data := "QQ==" } (by decide)
  exact ⟨h.1, h.2.1 (by decide) (by decide)⟩

/-- Claim C3, evaluated at the failing input: an email-labelled select
whose options cannot accept the address, an empty answer set and a resume
whose text contains an email.  The main loop fills nothing, the fallback
pass runs, its select set fails (no effect is logged), yet the un-awaited
promise is truthy, the field is counted and autofillFields returns true
with no successful fill. -/
theorem C3_fallback_counts_unverified_fill :
    (autofillFields docEmailSelect [fieldEmailSelect] []
      (some { raw_text := "a@b.com" }) none).1 = true ∧
    fillSucceeded (autofillFields docEmailSelect [fieldEmailSelect] []
      (some { raw_text := "a@b.com" }) none).2 = false := by
  exact ⟨by decide, by decide⟩

/-- Claim C6, refuted: on a control carrying both an aria-label and a
placeholder (and no other label source) the resolver returns the
placeholder, so erasing the placeholder changes the result — the
aria-label attribute is not consulted before the placeholder. -/
theorem C6_aria_placeholder_counterexample : ¬ ariaBeforePlaceholderClaim := by
  intro h
  have h0 := h docAriaPh 0 (by decide) (by decide)
  exact absurd h0 (by decide)

/-- Claim C6, amended: label resolution is a fixed total priority chain —
label-for, parent label, aria-labelledby, preceding siblings,
placeholder, aria-label attribute, ancestor heading — returning the first
produced result and the sentinel when all fail; the aria-labelledby
reference strategies do precede the placeholder, but the aria-label
attribute itself is consulted only after the placeholder. -/
theorem C6_label_priority_amended (d : Doc) (i : Nat) :
    (∀ l, labStrat1 d i = some l → getLabelForElement d i = l) ∧
    (labStrat1 d i = none → ∀ l, labStrat2 d i = some l → getLabelForElement d i = l) ∧
    (labStrat1 d i = none → labStrat2 d i = none →
      ∀ l, labStrat3 d i = some l → getLabelForElement d i = l) ∧
    (labStrat1 d i = none → labStrat2 d i = none → labStrat3 d i = none →
      ∀ l, labStrat4 d i = some l → getLabelForElement d i = l) ∧
    (labStrat1 d i = none → labStrat2 d i = none → labStrat3 d i = none →
      labStrat4 d i = none → ∀ l, labStrat5ph d i = some l → getLabelForElement d i = l) ∧
    (labStrat1 d i = none → labStrat2 d i = none → labStrat3 d i = none →
      labStrat4 d i = none → labStrat5ph d i = none →
      ∀ l, labStrat5aria d i = some l → getLabelForElement d i = l) ∧
    (labStrat1 d i = none → labStrat2 d i = none → labStrat3 d i = none →
      labStrat4 d i = none → labStrat5ph d i = none → labStrat5aria d i = none →
      ∀ l, labStrat6 d i = some l → getLabelForElement d i = l) ∧
    (labStrat1 d i = none → labStrat2 d i = none → labStrat3 d i = none →
      labStrat4 d i = none → labStrat5ph d i = none → labStrat5aria d i = none →
      labStrat6 d i = none → getLabelForElement d i = "(no-label)") := by
  refine ⟨?_, ?_, ?_, ?_, ?_, ?_, ?_, ?_⟩ <;>
    intros <;> simp_all [getLabelForElement, firstSome, List.findSome?]

theorem C6_label_priority_amended_witness : getLabelForElement docAriaPh 0 = "P" :=
  (C6_label_priority_amended docAriaPh 0).2.2.2.2.1 (by decide) (by decide) (by decide)
    (by decide) "P" (by decide)

/-- Claim C7, refuted: a preceding text-bearing sibling whose text is
whitespace only makes strategy 4 return the empty string (the trimmed
text has length zero, below the 80-character cap), so the resolver can
return an empty label instead of the sentinel. -/
theorem C7_empty_label_counterexample : ¬ neverEmptyLabelClaim := by
  intro h
  exact h docWsSibling 1 (by decide)

theorem nonemptyTrim_ne_empty {t l : String} (h : nonemptyTrim t = some l) : l ≠ "" := by
  unfold nonemptyTrim at h
  by_cases hc : (truthyS t && truthyS (jsTrim t)) = true
  · rw [if_pos hc] at h
    simp only [truthyS, Bool.and_eq_true, decide_eq_true_eq] at hc
    have hl := Option.some.inj h
    rw [← hl]
    exact hc.2
  · rw [if_neg hc] at h
    exact absurd h (by simp)

theorem bind_nonemptyTrim_ne_empty {o : Option Nat} {f : Nat → String} {l : String}
    (h : o.bind (fun j => nonemptyTrim (f j)) = some l) : l ≠ "" := by
  cases o with
  | none => exact absurd h (by simp)
  | some j =>
    simp only [Option.some_bind] at h
    exact nonemptyTrim_ne_empty h

theorem labStrat1_ne_empty {d : Doc} {i : Nat} {l : String}
    (h : labStrat1 d i = some l) : l ≠ "" := by
  unfold labStrat1 at h
  by_cases hc : truthyS (elemAt d i).idAttr = true
  · rw [if_pos hc] at h
    exact bind_nonemptyTrim_ne_empty h
  · rw [if_neg hc] at h
    exact absurd h (by simp)

theorem labStrat2_ne_empty {d : Doc} {i : Nat} {l : String}
    (h : labStrat2 d i = some l) : l ≠ "" := by
  unfold labStrat2 at h
  exact bind_nonemptyTrim_ne_empty h

theorem labStrat3_ne_empty {d : Doc} {i : Nat} {l : String}
    (h : labStrat3 d i = some l) : l ≠ "" := by
  unfold labStrat3 at h
  cases ha : (elemAt d i).ariaLabelledby with
  | none => rw [ha] at h; exact absurd h (by simp)
  | some a =>
    simp only [ha] at h
    by_cases hc : truthyS a = true
    · rw [if_pos hc] at h
      exact bind_nonemptyTrim_ne_empty h
    · rw [if_neg hc] at h
      exact absurd h (by simp)

theorem labStrat4Go_ne_empty {d : Doc} : ∀ {js : List Nat} {l : String},
    (∀ j ∈ js, truthyS (elemAt d j).innerText = true → jsTrim (elemAt d j).innerText ≠ "") →
    labStrat4Go d js = some l → l ≠ "" := by
  intro js
  induction js with
  | nil => intro l _ h; exact absurd h (by simp [labStrat4Go])
  | cons j rest ih =>
    intro l hall h
    unfold labStrat4Go at h
    by_cases c1 : ((elemAt d j).tag == "label" && truthyS (jsTrim (elemAt d j).innerText)) = true
    · rw [if_pos c1] at h
      simp only [truthyS, Bool.and_eq_true, decide_eq_true_eq] at c1
      rw [← Option.some.inj h]
      exact c1.2
    · rw [if_neg c1] at h
      by_cases c2 :
          (truthyS (elemAt d j).innerText && decide ((jsTrim (elemAt d j).innerText).length < 80))
            = true
      · rw [if_pos c2] at h
        simp only [Bool.and_eq_true] at c2
        rw [← Option.some.inj h]
        exact hall j (List.mem_cons_self _ _) c2.1
      · rw [if_neg c2] at h
        exact ih (fun j' hj' => hall j' (List.mem_cons_of_mem _ hj')) h

theorem labStrat4_ne_empty {d : Doc} {i : Nat} {l : String}
    (hs : sibsTrimOk d i = true) (h : labStrat4 d i = some l) : l ≠ "" := by
  unfold labStrat4 at h
  refine labStrat4Go_ne_empty ?_ h
  intro j hj ht
  simp only [sibsTrimOk, List.all_eq_true] at hs
  have := hs j hj
  simp [ht] at this
  exact this

theorem labStrat5ph_ne_empty {d : Doc} {i : Nat} {l : String}
    (h : labStrat5ph d i = some l) : l ≠ "" := by
  unfold labStrat5ph at h
  exact nonemptyTrim_ne_empty h

theorem labStrat5aria_ne_empty {d : Doc} {i : Nat} {l : String}
    (ha : ariaTrimOk (elemAt d i).ariaLabel = true) (h : labStrat5aria d i = some l) :
    l ≠ "" := by
  unfold labStrat5aria at h
  cases hv : (elemAt d i).ariaLabel with
  | none => rw [hv] at h; exact absurd h (by simp)
  | some a =>
    simp only [hv] at h
    by_cases hc : truthyS a = true
    · rw [if_pos hc] at h
      rw [hv] at ha
      simp only [ariaTrimOk] at ha
      simp [hc] at ha
      rw [← Option.some.inj h]
      exact ha
    · rw [if_neg hc] at h
      exact absurd h (by simp)

theorem labStrat6Go_ne_empty {d : Doc} : ∀ {fuel : Nat} {node : Nat} {l : String},
    labStrat6Go d node fuel = some l → l ≠ "" := by
  intro fuel
  induction fuel with
  | zero => intro node l h; exact absurd h (by simp [labStrat6Go])
  | succ n ih =>
    intro node l h
    unfold labStrat6Go at h
    cases hp : (elemAt d node).parent with
    | none => rw [hp] at h; exact absurd h (by simp)
    | some p =>
      simp only [hp] at h
      cases hq : (queryDescTag d p headingTags).bind
          (fun hh => nonemptyTrim (elemAt d hh).innerText) with
      | some t =>
        simp only [hq] at h
        rw [← Option.some.inj h]
        exact bind_nonemptyTrim_ne_empty hq
      | none =>
        simp only [hq] at h
        exact ih h

theorem labStrat6_ne_empty {d : Doc} {i : Nat} {l : String}
    (h : labStrat6 d i = some l) : l ≠ "" := by
  unfold labStrat6 at h
  exact labStrat6Go_ne_empty h

theorem firstSome_getD_ne_empty {opts : List (Option String)}
    (h : ∀ o ∈ opts, ∀ l, o = some l → l ≠ "") :
    (firstSome opts).getD "(no-label)" ≠ "" := by
  induction opts with
  | nil => simp [firstSome, List.findSome?]
  | cons a as ih =>
    cases ha : a with
    | some l =>
      simp only [firstSome, List.findSome?, ha, id, Option.getD_some]
      exact h a (List.mem_cons_self _ _) l ha
    | none =>
      simp only [firstSome, List.findSome?, ha, id]
      exact ih (fun o ho => h o (List.mem_cons_of_mem _ ho))

/-- Claim C7, amended: the resolver returns a nonempty label or the
sentinel, except through the two empty-capable sites the counterexample
exploits — when an examined preceding sibling carries truthy but
whitespace-only text, or when the aria-label attribute is truthy but
whitespace only.  Excluding those two situations, the result is never the
empty string. -/
theorem C7_label_never_empty_amended (d : Doc) (i : Nat)
    (hsib : sibsTrimOk d i = true)
    (haria : ariaTrimOk (elemAt d i).ariaLabel = true) :
    getLabelForElement d i ≠ "" := by
  unfold getLabelForElement
  apply firstSome_getD_ne_empty
  intro o ho l hol
  simp only [List.mem_cons, List.not_mem_nil, or_false] at ho
  rcases ho with h | h | h | h | h | h | h <;> subst h
  · exact labStrat1_ne_empty hol
  · exact labStrat2_ne_empty hol
  · exact labStrat3_ne_empty hol
  · exact labStrat4_ne_empty hsib hol
  · exact labStrat5ph_ne_empty hol
  · exact labStrat5aria_ne_empty haria hol
  · exact labStrat6_ne_empty hol

theorem C7_label_never_empty_amended_witness : getLabelForElement docTextSibling 1 ≠ "" :=
  C7_label_never_empty_amended docTextSibling 1 (by decide) (by decide)

theorem dedup_mem_sub : ∀ (fs : List Field) (seen : List String) (f : Field),
    f ∈ dedupByKey fs seen → f ∈ fs := by
  intro fs
  induction fs with
  | nil => intro seen f h; simp [dedupByKey] at h
  | cons a as ih =>
    intro seen f h
    unfold dedupByKey at h
    by_cases hc : seen.contains (fieldKey a) = true
    · rw [if_pos hc] at h
      exact List.mem_cons_of_mem _ (ih _ _ h)
    · rw [if_neg hc] at h
      rcases List.mem_cons.mp h with h | h
      · exact h ▸ List.mem_cons_self _ _
      · exact List.mem_cons_of_mem _ (ih _ _ h)

theorem dedup_key_unseen : ∀ (fs : List Field) (seen : List String) (f : Field),
    f ∈ dedupByKey fs seen → seen.contains (fieldKey f) = false := by
  intro fs
  induction fs with
  | nil => intro seen f h; simp [dedupByKey] at h
  | cons a as ih =>
    intro seen f h
    unfold dedupByKey at h
    by_cases hc : seen.contains (fieldKey a) = true
    · rw [if_pos hc] at h
      exact ih _ _ h
    · rw [if_neg hc] at h
      rcases List.mem_cons.mp h with h | h
      · subst h
        simp only [Bool.not_eq_true] at hc
        exact hc
      · have := ih _ _ h
        simp only [List.contains_cons, Bool.or_eq_false_iff] at this
        exact this.2

theorem dedup_pairwise_keys : ∀ (fs : List Field) (seen : List String),
    List.Pairwise (fun f g => fieldKey f ≠ fieldKey g) (dedupByKey fs seen) := by
  intro fs
  induction fs with
  | nil => intro seen; simp [dedupByKey]
  | cons a as ih =>
    intro seen
    unfold dedupByKey
    by_cases hc : seen.contains (fieldKey a) = true
    · rw [if_pos hc]
      exact ih _
    · rw [if_neg hc]
      refine List.pairwise_cons.mpr ⟨?_, ih _⟩
      intro g hg
      have := dedup_key_unseen as (fieldKey a :: seen) g hg
      simp only [List.contains_cons, Bool.or_eq_false_iff, beq_eq_false_iff_ne] at this
      exact fun he => this.1 he.symm

theorem dedup_first_mem : ∀ (fs : List Field) (seen : List String) (i : Nat) (f : Field),
    fs[i]? = some f → seen.contains (fieldKey f) = false →
    (∀ j g, j < i → fs[j]? = some g → fieldKey g ≠ fieldKey f) →
    f ∈ dedupByKey fs seen := by
  intro fs
  induction fs with
  | nil => intro seen i f h; simp at h
  | cons a as ih =>
    intro seen i f hget hseen hearlier
    cases i with
    | zero =>
      have ha : a = f := by simpa using hget
      subst ha
      unfold dedupByKey
      rw [if_neg (by rw [hseen]; simp)]
      exact List.mem_cons_self _ _
    | succ n =>
      have hkey_a : fieldKey a ≠ fieldKey f :=
        hearlier 0 a (Nat.succ_pos n) (by simp)
      unfold dedupByKey
      by_cases hc : seen.contains (fieldKey a) = true
      · rw [if_pos hc]
        exact ih seen n f (by simpa using hget) hseen
          (fun j g hj hg => hearlier (j + 1) g (by omega) (by simpa using hg))
      · rw [if_neg hc]
        refine List.mem_cons_of_mem _ (ih (fieldKey a :: seen) n f (by simpa using hget) ?_
          (fun j g hj hg => hearlier (j + 1) g (by omega) (by simpa using hg)))
        simp only [List.contains_cons, Bool.or_eq_false_iff, beq_eq_false_iff_ne]
        exact ⟨hkey_a.symm, hseen⟩

theorem fTuple_eq_fieldKey_eq {f g : Field} (h : fTuple f = fTuple g) :
    fieldKey f = fieldKey g := by
  unfold fTuple at h
  obtain ⟨h1, h2, h3⟩ : f.id = g.id ∧ f.name = g.name ∧ f.label_text = g.label_text := by
    simpa [Prod.ext_iff] using h
  unfold fieldKey
  rw [h1, h2, h3]

/-- Claim C8, refuted: the deduplication key is the string joining id,
name and label with double colons, which is coarser than the identity
tuple — on the collision document the two descriptors have distinct
tuples but equal keys, so the second (the first-seen descriptor of its
own tuple) is dropped from the extraction result. -/
theorem C8_dedupe_counterexample : ¬ dedupeFirstSeenClaim := by
  intro h
  have h1 := h docKeyCollision 1 fieldCollB (by decide) (by
    intro j g hj hg
    have hj0 : j = 0 := by omega
    subst hj0
    have he : (rawFields docKeyCollision)[0]? = some fieldCollA := by decide
    rw [he] at hg
    have hgg := Option.some.inj hg
    rw [← hgg]
    decide)
  exact absurd h1 (by decide)

/-- Claim C8, amended: extraction is deterministic; the output never
holds two descriptors with the same joined key (hence never two with the
same identity tuple); every output descriptor comes from the raw scan;
and the first raw descriptor of each joined key is kept — so the
first-seen descriptor of a tuple is kept exactly when its key does not
collide with an earlier descriptor of a different tuple. -/
theorem C8_extraction_dedupe_amended (d : Doc) :
    extractFields d = extractFields d ∧
    List.Pairwise (fun f g => fieldKey f ≠ fieldKey g) (extractFields d) ∧
    List.Pairwise (fun f g => fTuple f ≠ fTuple g) (extractFields d) ∧
    (∀ f ∈ extractFields d, f ∈ rawFields d) ∧
    (∀ (i : Nat) (f : Field), (rawFields d)[i]? = some f →
      (∀ j g, j < i → (rawFields d)[j]? = some g → fieldKey g ≠ fieldKey f) →
      f ∈ extractFields d) := by
  refine ⟨rfl, dedup_pairwise_keys _ _, ?_, fun f hf => dedup_mem_sub _ _ _ hf, ?_⟩
  · exact (dedup_pairwise_keys (rawFields d) []).imp
      (fun hk ht => hk (fTuple_eq_fieldKey_eq ht))
  · intro i f hget hearly
    exact dedup_first_mem (rawFields d) [] i f hget (by simp) hearly

theorem C8_extraction_dedupe_amended_witness : fieldCollA ∈ extractFields docKeyCollision :=
  (C8_extraction_dedupe_amended docKeyCollision).2.2.2.2 0 fieldCollA (by decide)
    (fun j _ hj _ => absurd hj (by omega))

/-- Claim C1, refuted: cancel while the fetch is in flight, then let the
fetch settle — the handler persists the terminal record unconditionally,
and the next poll reads complete instead of not_found. -/
theorem C1_cancel_counterexample : ¬ cancelClaim := by
  intro h
  have h0 := h [Event.register 0, Event.persistProcessing 1]
    [Event.settle { ok := true, status := some 200, data := some "d" }]
  exact absurd h0 (by decide)

theorem cleared_run : ∀ (es : List Event) (s : BgState), s.storage = none → s.pending = false →
    (∀ e ∈ es, isConsumerEvent e = true) →
    (run s es).storage = none ∧ (run s es).pending = false := by
  intro es
  induction es with
  | nil => intro s h1 h2 _; exact ⟨h1, h2⟩
  | cons e es ih =>
    intro s h1 h2 hall
    have he := hall e (List.mem_cons_self _ _)
    have hstep : (applyEvent s e).storage = none ∧ (applyEvent s e).pending = false := by
      cases e with
      | check => constructor <;> simp [applyEvent, h1, h2]
      | cancel => constructor <;> simp [applyEvent]
      | register t => simp [isConsumerEvent] at he
      | persistProcessing t => simp [isConsumerEvent] at he
      | settle res => simp [isConsumerEvent] at he
    have hrec := ih (applyEvent s e) hstep.1 hstep.2
      (fun e' he' => hall e' (List.mem_cons_of_mem _ he'))
    simpa [run, List.foldl_cons] using hrec

/-- Claim C1, amended: after a cancel, every poll issued before the
orchestrator touches the request again answers not_found; the in-flight
handler, however, is never told about the cancellation, and when its
fetch settles it re-persists a terminal record that a later poll can
read. -/
theorem C1_cancel_amended (s : BgState) (es : List Event)
    (h : ∀ e ∈ es, isConsumerEvent e = true) :
    checkResp (run (applyEvent s Event.cancel) es) = Resp.not_found := by
  have hc := cleared_run es (applyEvent s Event.cancel) (by simp [applyEvent])
    (by simp [applyEvent]) h
  simp [checkResp, hc.1, hc.2]

theorem C1_cancel_amended_witness :
    checkResp (run (applyEvent (run initialState [Event.register 0, Event.persistProcessing 1])
      Event.cancel) [Event.check, Event.check]) = Resp.not_found :=
  C1_cancel_amended _ [Event.check, Event.check] (by decide)

theorem recordOfRes_terminal (res : FetchRes) : isTerminal (recordOfRes res) = true := by
  unfold recordOfRes
  cases hok : res.ok <;> simp [isTerminal]

theorem invB_step (s : BgState) (e : Event) (hs : InvB s = true) : InvB (applyEvent s e) = true := by
  obtain ⟨st, pd, ph⟩ := s
  cases e with
  | register t =>
    cases ph <;> rcases st with _ | (_ | _ | _) <;> cases pd <;>
      simp_all [applyEvent, InvB]
  | persistProcessing t =>
    cases ph <;> rcases st with _ | (_ | _ | _) <;> cases pd <;>
      simp_all [applyEvent, InvB]
  | settle res =>
    cases ph <;> rcases st with _ | (_ | _ | _) <;> cases pd <;>
      simp_all [applyEvent, InvB]
  | check =>
    cases ph <;> rcases st with _ | (_ | _ | _) <;> cases pd <;>
      simp_all [applyEvent, InvB]
  | cancel =>
    cases ph <;> rcases st with _ | (_ | _ | _) <;> cases pd <;>
      simp_all [applyEvent, InvB]

theorem invB_run (es : List Event) : InvB (run initialState es) = true := by
  have key : ∀ (es : List Event) (s : BgState), InvB s = true → InvB (run s es) = true := by
    intro es
    induction es with
    | nil => exact fun s h => h
    | cons e es ih =>
      intro s h
      have := ih (applyEvent s e) (invB_step s e h)
      simpa [run, List.foldl_cons] using this
  exact key es initialState (by decide)

theorem invB_terminal_settled {s : BgState} (hinv : InvB s = true) {r : ReqRecord}
    (hr : s.storage = some r) (ht : isTerminal r = true) :
    s.phase = Phase.settled ∧ s.pending = false := by
  obtain ⟨st, pd, ph⟩ := s
  simp only at hr
  subst hr
  cases ph <;> rcases r with _ | _ | _ <;> cases pd <;> simp_all [InvB, isTerminal]

theorem quiet_step (s : BgState) (e : Event) (h : Quiet s) : Quiet (applyEvent s e) := by
  obtain ⟨st, pd, ph⟩ := s
  obtain ⟨h1, h2, h3⟩ := h
  simp only at h1 h2 h3
  subst h1; subst h2; subst h3
  cases e <;> simp [applyEvent, Quiet]

theorem quiet_run : ∀ (es : List Event) (s : BgState), Quiet s → Quiet (run s es) := by
  intro es
  induction es with
  | nil => exact fun s h => h
  | cons e es ih =>
    intro s h
    have := ih (applyEvent s e) (quiet_step s e h)
    simpa [run, List.foldl_cons] using this

theorem checkResp_quiet {s : BgState} (h : Quiet s) : checkResp s = Resp.not_found := by
  obtain ⟨_, h2, h3⟩ := h
  simp [checkResp, h2, h3]

theorem step_no_reversal {s : BgState} (hinv : InvB s = true) (e : Event)
    {r₁ r₂ : ReqRecord} (h1 : s.storage = some r₁)
    (h2 : (applyEvent s e).storage = some r₂) :
    r₁ = r₂ ∨ (isTerminal r₁ = false ∧ isTerminal r₂ = true) := by
  obtain ⟨st, pd, ph⟩ := s
  simp only at h1
  subst h1
  cases e with
  | register t =>
    left
    cases ph <;> simp_all [applyEvent]
  | persistProcessing t =>
    cases ph <;> rcases r₁ with _ | _ | _ <;> simp_all [applyEvent, InvB]
  | settle res =>
    cases hph : ph with
    | inFlight =>
      rcases r₁ with t₁ | d₁ | e₁ <;> simp_all [applyEvent, InvB]
      right
      refine ⟨rfl, ?_⟩
      rw [← h2]
      exact recordOfRes_terminal res
    | idle => left; simp_all [applyEvent]
    | registered => left; simp_all [applyEvent]
    | settled => left; simp_all [applyEvent]
  | check =>
    rcases r₁ with t₁ | d₁ | e₁ <;> simp_all [applyEvent]
  | cancel =>
    simp [applyEvent] at h2

/-- Claim C2: along any event sequence the stored record only moves from
Processing to one fixed terminal status (a stored record never changes
otherwise), and a terminal record is consumed exactly once — the check
that observes it returns its status and deletes it, and every later check
answers not_found. -/
theorem C2_record_lifecycle (es : List Event) :
    (∀ (e : Event) (r₁ r₂ : ReqRecord),
      (run initialState es).storage = some r₁ →
      (applyEvent (run initialState es) e).storage = some r₂ →
      r₁ = r₂ ∨ (isTerminal r₁ = false ∧ isTerminal r₂ = true)) ∧
    (∀ r : ReqRecord, isTerminal r = true → (run initialState es).storage = some r →
      checkResp (run initialState es) = respOf r ∧
      (applyEvent (run initialState es) Event.check).storage = none ∧
      ∀ es₂ : List Event,
        checkResp (run (applyEvent (run initialState es) Event.check) es₂) =
          Resp.not_found) := by
  have hinv := invB_run es
  constructor
  · intro e r₁ r₂ h1 h2
    exact step_no_reversal hinv e h1 h2
  · intro r ht hr
    have hsp := invB_terminal_settled hinv hr ht
    refine ⟨?_, ?_, ?_⟩
    · rcases r with t | dd | er
      · simp [isTerminal] at ht
      · simp [checkResp, hr, respOf]
      · simp [checkResp, hr, respOf]
    · rcases r with t | dd | er
      · simp [isTerminal] at ht
      · simp [applyEvent, hr]
      · simp [applyEvent, hr]
    · intro es₂
      apply checkResp_quiet
      apply quiet_run
      refine ⟨?_, ?_, ?_⟩
      · rcases r with t | dd | er
        · simp [isTerminal] at ht
        · simp [applyEvent, hr, hsp.1]
        · simp [applyEvent, hr, hsp.1]
      · rcases r with t | dd | er
        · simp [isTerminal] at ht
        · simp [applyEvent, hr]
        · simp [applyEvent, hr]
      · rcases r with t | dd | er
        · simp [isTerminal] at ht
        · simp [applyEvent, hr, hsp.2]
        · simp [applyEvent, hr, hsp.2]

theorem C2_record_lifecycle_witness :
    checkResp (run initialState [Event.register 0, Event.persistProcessing 1,
      Event.settle { ok := true, status := some 200, data := some "d" }]) =
      Resp.complete "d" ∧
    checkResp (run (applyEvent (run initialState [Event.register 0, Event.persistProcessing 1,
      Event.settle { ok := true, status := some 200, data := some "d" }]) Event.check)
      [Event.check]) = Resp.not_found := by
  have h := (C2_record_lifecycle [Event.register 0, Event.persistProcessing 1,
    Event.settle { ok := true, status := some 200, data := some "d" }]).2
    (ReqRecord.complete "d") (by decide) (by decide)
  exact ⟨h.1, h.2.2 [Event.check]⟩

theorem fetch_times_out {net : NetBehavior}
    (hns : settlesWithin net REQUEST_TIMEOUT = false) :
    fetchWithTimeout net REQUEST_TIMEOUT = timeoutRes REQUEST_TIMEOUT := by
  cases net with
  | hangs => rfl
  | settles ok st body t =>
    simp only [settlesWithin, decide_eq_false_iff_not] at hns
    simp [fetchWithTimeout, hns]
  | fails msg t =>
    simp only [settlesWithin, decide_eq_false_iff_not] at hns
    simp [fetchWithTimeout, hns]

/-- Claim C4: the shared deadline is two minutes; a network call that
neither resolves nor rejects within it makes the orchestrator persist an
Error record carrying the timeout message (both as the record value and
through the settle step of the state machine), and the polling
controller, which recomputes elapsed time before messaging the
background, stops with a client-side timeout at the deadline whatever the
background would answer. -/
theorem C4_timeout_deadlines :
    REQUEST_TIMEOUT = 120000 ∧
    (∀ net : NetBehavior, settlesWithin net REQUEST_TIMEOUT = false →
      handleResumeScoreTerminal net = ReqRecord.error (timeoutErrMsg REQUEST_TIMEOUT)) ∧
    jsIncludes (timeoutErrMsg REQUEST_TIMEOUT) "timed out" = true ∧
    (∀ (s : BgState) (net : NetBehavior), s.phase = Phase.inFlight →
      settlesWithin net REQUEST_TIMEOUT = false →
      (applyEvent s (Event.settle (fetchWithTimeout net REQUEST_TIMEOUT))).storage =
        some (ReqRecord.error (timeoutErrMsg REQUEST_TIMEOUT))) ∧
    (∀ (elapsed : Nat) (resp : Resp), REQUEST_TIMEOUT ≤ elapsed →
      checkRequestStatusStep elapsed resp = PollAct.clientTimeout) := by
    refine ⟨rfl, ?_, by decide, ?_, ?_⟩
    · intro net hns
      rw [handleResumeScoreTerminal, fetch_times_out hns]
      decide
    · intro s net hph hns
      rw [fetch_times_out hns]
      simp only [applyEvent, hph]
      simp [show recordOfRes (timeoutRes REQUEST_TIMEOUT) =
        ReqRecord.error (timeoutErrMsg REQUEST_TIMEOUT) from by decide]
    · intro elapsed resp h
      simp [checkRequestStatusStep, h]

theorem C4_timeout_deadlines_witness :
    handleResumeScoreTerminal NetBehavior.hangs =
      ReqRecord.error "Request timed out after 120 seconds" ∧
    checkRequestStatusStep 120000 Resp.processing = PollAct.clientTimeout := by
  constructor
  · have h := C4_timeout_deadlines.2.1 NetBehavior.hangs (by decide)
    rw [h]
    decide
  · exact C4_timeout_deadlines.2.2.2.2 120000 Resp.processing (by decide)

end ApplyBee
